import Mathlib

/-!
Shallow embedding over the exact reals of `src/great-circle.mjs`
(nicolas-van/cesium-carthographic): the Haversine ground distance, the
initial bearing and the great-circle destination of a `Cesium.Cartographic`
point, together with theorems settling the specification claims.

JS `number` arithmetic is embedded as real arithmetic; `Math.atan2` is the
complex argument (range (-π, π], `atan2 0 0 = 0`, matching `Math.atan2` on
non-signed-zero inputs); `Math.asin` is `Real.arcsin` (the two agree on
[-1, 1], which the embedded arguments are proved to stay in over the exact
reals); `Math.sqrt` is `Real.sqrt` (the two agree on nonnegative arguments,
which the embedded arguments are proved to stay in over the exact reals).
-/

namespace CesiumCartographic

noncomputable section

/-- JS `Math.atan2 y x` over the exact reals: the argument of the complex
number `x + y·i`, lying in (-π, π], with `atan2 0 0 = 0`. -/
def atan2 (y x : ℝ) : ℝ := Complex.arg (x + y * Complex.I)

/-- The external `Cesium.Cartographic` value consumed and produced by the
three functions: the constructor argument order is (longitude, latitude,
height), as in `new Cesium.Cartographic(lon, lat, 0)`. -/
structure Cartographic where
  longitude : ℝ
  latitude : ℝ
  height : ℝ

/-- `const MEAN_EARTH_RADIUS = 6371000` (src/great-circle.mjs line 4). -/
def MEAN_EARTH_RADIUS : ℝ := 6371000

/-- The Haversine intermediate `a` of `greatCircleGroundDistance`
(src/great-circle.mjs line 31), exactly as in the source: no clamping is
applied. -/
def haversineA (carto1 carto2 : Cartographic) : ℝ :=
  let φ1 := carto1.latitude
  let lam1 := carto1.longitude
  let φ2 := carto2.latitude
  let lam2 := carto2.longitude
  let Δφ := φ2 - φ1
  let Δlam := lam2 - lam1
  Real.sin (Δφ / 2) * Real.sin (Δφ / 2) +
    Real.cos φ1 * Real.cos φ2 * Real.sin (Δlam / 2) * Real.sin (Δlam / 2)

/-- The central angle `c = 2 * Math.atan2(Math.sqrt(a), Math.sqrt(1 - a))`
of `greatCircleGroundDistance` (src/great-circle.mjs line 32). -/
def centralAngle (carto1 carto2 : Cartographic) : ℝ :=
  let a := haversineA carto1 carto2
  2 * atan2 (Real.sqrt a) (Real.sqrt (1 - a))

/-- `greatCircleGroundDistance` (src/great-circle.mjs lines 16-36); the
JS default argument `radius = MEAN_EARTH_RADIUS` is made explicit. -/
def greatCircleGroundDistance (carto1 carto2 : Cartographic) (radius : ℝ) : ℝ :=
  let R := radius
  let c := centralAngle carto1 carto2
  let d := R * c
  d

/-- Modelled from the spec: `Cesium.Math.zeroToTwoPi` is an external
collaborator (the Cesium library) whose code is not in the source tree.
The spec describes it as the angle-normalization capability mapping any
real radian angle to [0, 2π), given by `((θ mod 2π) + 2π) mod 2π`, which
over the exact reals is `θ - 2π·⌊θ/(2π)⌋`. -/
def zeroToTwoPi (θ : ℝ) : ℝ := θ - 2 * Real.pi * (⌊θ / (2 * Real.pi)⌋ : ℝ)

/-- `greatCircleInitialBearing` (src/great-circle.mjs lines 47-62). -/
def greatCircleInitialBearing (carto1 carto2 : Cartographic) : ℝ :=
  let φ1 := carto1.latitude
  let φ2 := carto2.latitude
  let Δlam := carto2.longitude - carto1.longitude
  let x := Real.cos φ1 * Real.sin φ2 - Real.sin φ1 * Real.cos φ2 * Real.cos Δlam
  let y := Real.sin Δlam * Real.cos φ2
  let θ := atan2 y x
  zeroToTwoPi θ

/-- The intermediate `sinφ2` of `greatCircleDestination`
(src/great-circle.mjs line 88), exactly as in the source: no clamping is
applied before it is passed to `Math.asin`. -/
def destinationSinφ2 (carto : Cartographic) (distance initialBearing radius : ℝ) : ℝ :=
  let δ := distance / radius
  let θ := initialBearing
  let φ1 := carto.latitude
  Real.sin φ1 * Real.cos δ + Real.cos φ1 * Real.sin δ * Real.cos θ

/-- `greatCircleDestination` (src/great-circle.mjs lines 75-98); the JS
default argument `radius = MEAN_EARTH_RADIUS` is made explicit. Returns
`new Cesium.Cartographic(lon, lat, 0)`. -/
def greatCircleDestination (carto : Cartographic) (distance initialBearing radius : ℝ) :
    Cartographic :=
  let δ := distance / radius
  let θ := initialBearing
  let φ1 := carto.latitude
  let lam1 := carto.longitude
  let sinφ2 := destinationSinφ2 carto distance initialBearing radius
  let φ2 := Real.arcsin sinφ2
  let y := Real.sin θ * Real.sin δ * Real.cos φ1
  let x := Real.cos δ - Real.sin φ1 * sinφ2
  let lam2 := lam1 + atan2 y x
  let lat := φ2
  let lon := lam2
  ⟨lon, lat, 0⟩

/-! ### Shared helper lemmas -/

/-- Half-angle identity in product form. -/
lemma sin_half_mul_self (u : ℝ) : Real.sin (u / 2) * Real.sin (u / 2) = (1 - Real.cos u) / 2 := by
  have h2 : Real.cos (2 * (u / 2)) = Real.cos (u / 2) ^ 2 - Real.sin (u / 2) ^ 2 :=
    Real.cos_two_mul' (u / 2)
  have hu : 2 * (u / 2) = u := by ring
  rw [hu] at h2
  have h1 : Real.sin (u / 2) ^ 2 + Real.cos (u / 2) ^ 2 = 1 := Real.sin_sq_add_cos_sq (u / 2)
  nlinarith [h1, h2]

/-- The Haversine intermediate equals `(1 - cos C)/2` where `cos C` is the
spherical law-of-cosines expression. -/
lemma haversineA_eq (p1 p2 : Cartographic) :
    haversineA p1 p2 =
      (1 - (Real.sin p1.latitude * Real.sin p2.latitude +
        Real.cos p1.latitude * Real.cos p2.latitude *
          Real.cos (p2.longitude - p1.longitude))) / 2 := by
  simp only [haversineA]
  have hφ := sin_half_mul_self (p2.latitude - p1.latitude)
  have hlam := sin_half_mul_self (p2.longitude - p1.longitude)
  have hc := Real.cos_sub p2.latitude p1.latitude
  linear_combination hφ + Real.cos p1.latitude * Real.cos p2.latitude * hlam - (1 / 2) * hc

/-- The spherical law-of-cosines expression is the inner product of two unit
vectors, hence at most 1. -/
lemma cosC_le_one (φ1 lam1 φ2 lam2 : ℝ) :
    Real.sin φ1 * Real.sin φ2 + Real.cos φ1 * Real.cos φ2 * Real.cos (lam2 - lam1) ≤ 1 := by
  rw [Real.cos_sub]
  have n1 : (Real.cos φ1 * Real.cos lam1) ^ 2 + (Real.cos φ1 * Real.sin lam1) ^ 2 +
      Real.sin φ1 ^ 2 = 1 := by
    have h := Real.sin_sq_add_cos_sq lam1
    have h' := Real.sin_sq_add_cos_sq φ1
    nlinarith [h, h']
  have n2 : (Real.cos φ2 * Real.cos lam2) ^ 2 + (Real.cos φ2 * Real.sin lam2) ^ 2 +
      Real.sin φ2 ^ 2 = 1 := by
    have h := Real.sin_sq_add_cos_sq lam2
    have h' := Real.sin_sq_add_cos_sq φ2
    nlinarith [h, h']
  nlinarith [n1, n2, sq_nonneg (Real.cos φ1 * Real.cos lam1 - Real.cos φ2 * Real.cos lam2),
    sq_nonneg (Real.cos φ1 * Real.sin lam1 - Real.cos φ2 * Real.sin lam2),
    sq_nonneg (Real.sin φ1 - Real.sin φ2)]

/-- The spherical law-of-cosines expression is at least -1. -/
lemma neg_one_le_cosC (φ1 lam1 φ2 lam2 : ℝ) :
    -1 ≤ Real.sin φ1 * Real.sin φ2 + Real.cos φ1 * Real.cos φ2 * Real.cos (lam2 - lam1) := by
  rw [Real.cos_sub]
  have n1 : (Real.cos φ1 * Real.cos lam1) ^ 2 + (Real.cos φ1 * Real.sin lam1) ^ 2 +
      Real.sin φ1 ^ 2 = 1 := by
    have h := Real.sin_sq_add_cos_sq lam1
    have h' := Real.sin_sq_add_cos_sq φ1
    nlinarith [h, h']
  have n2 : (Real.cos φ2 * Real.cos lam2) ^ 2 + (Real.cos φ2 * Real.sin lam2) ^ 2 +
      Real.sin φ2 ^ 2 = 1 := by
    have h := Real.sin_sq_add_cos_sq lam2
    have h' := Real.sin_sq_add_cos_sq φ2
    nlinarith [h, h']
  nlinarith [n1, n2, sq_nonneg (Real.cos φ1 * Real.cos lam1 + Real.cos φ2 * Real.cos lam2),
    sq_nonneg (Real.cos φ1 * Real.sin lam1 + Real.cos φ2 * Real.sin lam2),
    sq_nonneg (Real.sin φ1 + Real.sin φ2)]

/-- Over the exact reals the unclamped Haversine intermediate is nonnegative. -/
lemma haversineA_nonneg (p1 p2 : Cartographic) : 0 ≤ haversineA p1 p2 := by
  rw [haversineA_eq]
  have := cosC_le_one p1.latitude p1.longitude p2.latitude p2.longitude
  linarith

/-- Over the exact reals the unclamped Haversine intermediate is at most 1. -/
lemma haversineA_le_one (p1 p2 : Cartographic) : haversineA p1 p2 ≤ 1 := by
  rw [haversineA_eq]
  have := neg_one_le_cosC p1.latitude p1.longitude p2.latitude p2.longitude
  linarith

/-- `atan2` of a nonnegative real over a nonnegative real is in the first
quadrant: it is nonnegative. -/
lemma atan2_nonneg {y x : ℝ} (hy : 0 ≤ y) : 0 ≤ atan2 y x := by
  apply Complex.arg_nonneg_iff.mpr
  simp [hy]

/-- `atan2` with a nonnegative second argument has absolute value at most
π/2. -/
lemma atan2_le_pi_div_two {y x : ℝ} (hx : 0 ≤ x) : atan2 y x ≤ Real.pi / 2 := by
  unfold atan2
  have hre : (0 : ℝ) ≤ ((x : ℂ) + (y : ℝ) * Complex.I).re := by simp [hx]
  have h := Complex.abs_arg_le_pi_div_two_iff.mpr hre
  exact le_trans (le_abs_self _) h

/-- `atan2 0 x = 0` when `0 ≤ x` (this covers `atan2 0 0 = 0`, as in JS). -/
lemma atan2_zero_of_nonneg {x : ℝ} (hx : 0 ≤ x) : atan2 0 x = 0 := by
  unfold atan2
  rw [show ((x : ℂ) + (0 : ℝ) * Complex.I) = ((x : ℝ) : ℂ) by push_cast; ring]
  exact Complex.arg_ofReal_of_nonneg hx

/-- `atan2 1 0 = π/2`. -/
lemma atan2_one_zero : atan2 1 0 = Real.pi / 2 := by
  unfold atan2
  rw [show ((0 : ℝ) : ℂ) + (1 : ℝ) * Complex.I = Complex.I by push_cast; ring]
  exact Complex.arg_I

/-- `atan2` lands in (-π, π]. -/
lemma atan2_mem_Ioc (y x : ℝ) : atan2 y x ∈ Set.Ioc (-Real.pi) Real.pi :=
  Complex.arg_mem_Ioc _

/-- The normalization lands in [0, 2π). -/
lemma zeroToTwoPi_mem_Ico (x : ℝ) : zeroToTwoPi x ∈ Set.Ico 0 (2 * Real.pi) := by
  have h2π : (0 : ℝ) < 2 * Real.pi := by positivity
  have hfr : zeroToTwoPi x = 2 * Real.pi * Int.fract (x / (2 * Real.pi)) := by
    have hx : 2 * Real.pi * (x / (2 * Real.pi)) = x := by field_simp
    unfold zeroToTwoPi
    rw [Int.fract, mul_sub, hx]
  constructor
  · rw [hfr]
    exact mul_nonneg h2π.le (Int.fract_nonneg _)
  · rw [hfr]
    calc 2 * Real.pi * Int.fract (x / (2 * Real.pi)) < 2 * Real.pi * 1 :=
          (mul_lt_mul_left h2π).mpr (Int.fract_lt_one _)
    _ = 2 * Real.pi := mul_one _

/-- Over the exact reals the unclamped `sinφ2` is at most 1. -/
lemma destinationSinφ2_le_one (p : Cartographic) (d θ r : ℝ) :
    destinationSinφ2 p d θ r ≤ 1 := by
  simp only [destinationSinφ2]
  have hp := Real.sin_sq_add_cos_sq p.latitude
  have hδ := Real.sin_sq_add_cos_sq (d / r)
  have ht : Real.cos θ ^ 2 ≤ 1 := Real.cos_sq_le_one θ
  have hc : (0 : ℝ) ≤ Real.cos p.latitude ^ 2 * (1 - Real.cos θ ^ 2) :=
    mul_nonneg (sq_nonneg _) (by linarith)
  nlinarith [sq_nonneg (Real.sin p.latitude - Real.cos (d / r)),
    sq_nonneg (Real.cos p.latitude * Real.cos θ - Real.sin (d / r)), hc, hp, hδ]

/-- Over the exact reals the unclamped `sinφ2` is at least -1. -/
lemma neg_one_le_destinationSinφ2 (p : Cartographic) (d θ r : ℝ) :
    -1 ≤ destinationSinφ2 p d θ r := by
  simp only [destinationSinφ2]
  have hp := Real.sin_sq_add_cos_sq p.latitude
  have hδ := Real.sin_sq_add_cos_sq (d / r)
  have ht : Real.cos θ ^ 2 ≤ 1 := Real.cos_sq_le_one θ
  have hc : (0 : ℝ) ≤ Real.cos p.latitude ^ 2 * (1 - Real.cos θ ^ 2) :=
    mul_nonneg (sq_nonneg _) (by linarith)
  nlinarith [sq_nonneg (Real.sin p.latitude + Real.cos (d / r)),
    sq_nonneg (Real.cos p.latitude * Real.cos θ + Real.sin (d / r)), hc, hp, hδ]

/-! ### Claim theorems -/

/-- C1: over the exact reals the Haversine intermediate `a` of
`greatCircleGroundDistance` always lies in [0, 1], so the clamp the spec
mandates is the identity there and both square-root arguments are
nonnegative. The source itself applies no clamp (line 31-32), so under
IEEE-754 rounding `a` can exceed 1 and `Math.sqrt(1 - a)` becomes NaN: the
claim that the code clamps is a code bug, and this theorem records that the
bug is purely a floating-point phenomenon. -/
theorem haversineA_unclamped_in_unit : ∀ p1 p2 : Cartographic,
    0 ≤ haversineA p1 p2 ∧ haversineA p1 p2 ≤ 1 ∧
      min 1 (max 0 (haversineA p1 p2)) = haversineA p1 p2 := by
  intro p1 p2
  have h0 := haversineA_nonneg p1 p2
  have h1 := haversineA_le_one p1 p2
  exact ⟨h0, h1, by rw [max_eq_right h0, min_eq_right h1]⟩

/-- C2: over the exact reals the intermediate `sinφ2` of
`greatCircleDestination` always lies in [-1, 1], so the clamp the spec
mandates is the identity there and `asin` receives an in-range argument.
The source itself applies no clamp (line 88-89), so under IEEE-754 rounding
`sinφ2` can exceed 1 near the poles and `Math.asin` becomes NaN: the claim
that the code clamps is a code bug, and this theorem records that the bug
is purely a floating-point phenomenon. -/
theorem destinationSinφ2_unclamped_in_unit : ∀ (p : Cartographic) (d θ r : ℝ),
    -1 ≤ destinationSinφ2 p d θ r ∧ destinationSinφ2 p d θ r ≤ 1 ∧
      min 1 (max (-1) (destinationSinφ2 p d θ r)) = destinationSinφ2 p d θ r := by
  intro p d θ r
  have h0 := neg_one_le_destinationSinφ2 p d θ r
  have h1 := destinationSinφ2_le_one p d θ r
  exact ⟨h0, h1, by rw [max_eq_right h0, min_eq_right h1]⟩

/-- C3: `greatCircleInitialBearing` always returns a value in [0, 2π):
never negative, never ≥ 2π (with `Cesium.Math.zeroToTwoPi` modelled from
the spec as the normalization mapping any real angle to [0, 2π)). -/
theorem greatCircleInitialBearing_mem_Ico :
    ∀ p1 p2 : Cartographic, greatCircleInitialBearing p1 p2 ∈ Set.Ico 0 (2 * Real.pi) := by
  intro p1 p2
  simp only [greatCircleInitialBearing]
  exact zeroToTwoPi_mem_Ico _

/-- C6: `greatCircleDestination` returns the longitude
`p.longitude + atan2(y, x)` verbatim, with `y = sinθ·sinδ·cosφ1` and
`x = cosδ − sinφ1·sinφ2`, applying no renormalization; in particular the
output longitude can lie outside (-π, π], witnessed by a point with
longitude 10 and zero travel. -/
theorem greatCircleDestination_longitude_verbatim :
    (∀ (p : Cartographic) (d θ r : ℝ),
      (greatCircleDestination p d θ r).longitude =
        p.longitude + atan2 (Real.sin θ * Real.sin (d / r) * Real.cos p.latitude)
          (Real.cos (d / r) - Real.sin p.latitude * destinationSinφ2 p d θ r)) ∧
    (greatCircleDestination ⟨10, 0, 0⟩ 0 0 MEAN_EARTH_RADIUS).longitude ∉
      Set.Ioc (-Real.pi) Real.pi := by
  constructor
  · intro p d θ r
    rfl
  · have ha : atan2 0 1 = 0 := atan2_zero_of_nonneg zero_le_one
    have hl : (greatCircleDestination ⟨10, 0, 0⟩ 0 0 MEAN_EARTH_RADIUS).longitude = 10 := by
      simp only [greatCircleDestination, destinationSinφ2]
      norm_num [ha]
    rw [hl, Set.mem_Ioc]
    push_neg
    intro _
    have := Real.pi_lt_d2
    linarith

/-- C7: `greatCircleGroundDistance` is symmetric under swapping its two
points, for every radius. -/
theorem greatCircleGroundDistance_symm :
    ∀ (p1 p2 : Cartographic) (radius : ℝ),
      greatCircleGroundDistance p1 p2 radius = greatCircleGroundDistance p2 p1 radius := by
  intro p1 p2 radius
  have h : haversineA p1 p2 = haversineA p2 p1 := by
    rw [haversineA_eq, haversineA_eq,
      show p1.longitude - p2.longitude = -(p2.longitude - p1.longitude) by ring, Real.cos_neg]
    ring
  simp only [greatCircleGroundDistance, centralAngle, h]

/-- C9: none of the three operations reads the `height` field of any input
point: outputs are identical across runs whose inputs differ only in the
height fields, and `greatCircleDestination` always emits height 0. -/
theorem height_not_read :
    ∀ (lo1 la1 h1 h1' lo2 la2 h2 h2' d θ r : ℝ),
      greatCircleGroundDistance ⟨lo1, la1, h1⟩ ⟨lo2, la2, h2⟩ r =
          greatCircleGroundDistance ⟨lo1, la1, h1'⟩ ⟨lo2, la2, h2'⟩ r ∧
        greatCircleInitialBearing ⟨lo1, la1, h1⟩ ⟨lo2, la2, h2⟩ =
          greatCircleInitialBearing ⟨lo1, la1, h1'⟩ ⟨lo2, la2, h2'⟩ ∧
        greatCircleDestination ⟨lo1, la1, h1⟩ d θ r =
          greatCircleDestination ⟨lo1, la1, h1'⟩ d θ r ∧
        (greatCircleDestination ⟨lo1, la1, h1⟩ d θ r).height = 0 := by
  intro lo1 la1 h1 h1' lo2 la2 h2 h2' d θ r
  exact ⟨rfl, rfl, rfl, rfl⟩

/-- C10: `greatCircleGroundDistance` is homogeneous of degree 1 in its
radius argument: the central angle does not involve the radius, which
enters only through the final multiplication. -/
theorem greatCircleGroundDistance_radius_homogeneous :
    ∀ (p1 p2 : Cartographic) (r : ℝ),
      greatCircleGroundDistance p1 p2 r = r * greatCircleGroundDistance p1 p2 1 := by
  intro p1 p2 r
  simp only [greatCircleGroundDistance]
  ring

/-- C4 (amended): for every point whose latitude lies in [-π/2, π/2] and
every bearing, traveling zero distance returns the same latitude and
longitude, with height 0. Outside that latitude range `asin(sin φ)` does
not recover the latitude, so the restriction to the data model's latitude
range is necessary. -/
theorem greatCircleDestination_zero_distance (p : Cartographic) (θ : ℝ)
    (h : -(Real.pi / 2) ≤ p.latitude) (h' : p.latitude ≤ Real.pi / 2) :
    (greatCircleDestination p 0 θ MEAN_EARTH_RADIUS).latitude = p.latitude ∧
      (greatCircleDestination p 0 θ MEAN_EARTH_RADIUS).longitude = p.longitude ∧
      (greatCircleDestination p 0 θ MEAN_EARTH_RADIUS).height = 0 := by
  have hs : destinationSinφ2 p 0 θ MEAN_EARTH_RADIUS = Real.sin p.latitude := by
    simp [destinationSinφ2]
  refine ⟨?_, ?_, rfl⟩
  · show Real.arcsin (destinationSinφ2 p 0 θ MEAN_EARTH_RADIUS) = p.latitude
    rw [hs]
    exact Real.arcsin_sin h h'
  · show p.longitude + atan2 (Real.sin θ * Real.sin (0 / MEAN_EARTH_RADIUS) * Real.cos p.latitude)
      (Real.cos (0 / MEAN_EARTH_RADIUS) -
        Real.sin p.latitude * destinationSinφ2 p 0 θ MEAN_EARTH_RADIUS) = p.longitude
    rw [hs]
    have hy : Real.sin θ * Real.sin (0 / MEAN_EARTH_RADIUS) * Real.cos p.latitude = 0 := by
      simp
    have hx : Real.cos (0 / MEAN_EARTH_RADIUS) - Real.sin p.latitude * Real.sin p.latitude =
        1 - Real.sin p.latitude * Real.sin p.latitude := by
      simp
    rw [hy, hx, atan2_zero_of_nonneg (by nlinarith [Real.sin_sq_le_one p.latitude]), add_zero]

/-- Witness for `greatCircleDestination_zero_distance` at the origin point
and bearing 0. -/
theorem greatCircleDestination_zero_distance_witness :
    (-(Real.pi / 2) ≤ (0 : ℝ) ∧ (0 : ℝ) ≤ Real.pi / 2) ∧
      ((greatCircleDestination ⟨0, 0, 0⟩ 0 0 MEAN_EARTH_RADIUS).latitude = 0 ∧
        (greatCircleDestination ⟨0, 0, 0⟩ 0 0 MEAN_EARTH_RADIUS).longitude = 0 ∧
        (greatCircleDestination ⟨0, 0, 0⟩ 0 0 MEAN_EARTH_RADIUS).height = 0) := by
  have hπ := Real.pi_pos
  have h1 : -(Real.pi / 2) ≤ (0 : ℝ) := by linarith
  have h2 : (0 : ℝ) ≤ Real.pi / 2 := by linarith
  exact ⟨⟨h1, h2⟩, greatCircleDestination_zero_distance ⟨0, 0, 0⟩ 0 h1 h2⟩

/-- C4 counterexample: for the (out-of-range) latitude π, zero-distance
travel does not return the point unchanged: the returned latitude is
`asin(sin π) = 0 ≠ π`, refuting the claim as stated for every point. -/
theorem greatCircleDestination_zero_distance_counterexample :
    (greatCircleDestination ⟨0, Real.pi, 0⟩ 0 0 MEAN_EARTH_RADIUS).latitude ≠
      (⟨0, Real.pi, 0⟩ : Cartographic).latitude := by
  have hs : destinationSinφ2 ⟨0, Real.pi, 0⟩ 0 0 MEAN_EARTH_RADIUS = 0 := by
    simp [destinationSinφ2]
  have hl : (greatCircleDestination ⟨0, Real.pi, 0⟩ 0 0 MEAN_EARTH_RADIUS).latitude = 0 := by
    show Real.arcsin (destinationSinφ2 ⟨0, Real.pi, 0⟩ 0 0 MEAN_EARTH_RADIUS) = 0
    rw [hs, Real.arcsin_zero]
  rw [hl]
  show (0 : ℝ) ≠ Real.pi
  intro hcontra
  exact Real.pi_ne_zero hcontra.symm

/-- C5: traveling a negative distance is the same as traveling the positive
distance along the opposite bearing `θ + π`, for every point, distance,
bearing and positive radius. -/
theorem greatCircleDestination_neg_distance (p : Cartographic) (d θ r : ℝ) (_hr : 0 < r) :
    greatCircleDestination p (-d) θ r = greatCircleDestination p d (θ + Real.pi) r := by
  have hsin : destinationSinφ2 p (-d) θ r = destinationSinφ2 p d (θ + Real.pi) r := by
    simp only [destinationSinφ2, neg_div, Real.cos_neg, Real.sin_neg, Real.cos_add,
      Real.sin_pi, Real.cos_pi]
    ring
  have hy : Real.sin θ * Real.sin (-d / r) * Real.cos p.latitude =
      Real.sin (θ + Real.pi) * Real.sin (d / r) * Real.cos p.latitude := by
    simp only [neg_div, Real.sin_neg, Real.sin_add, Real.sin_pi, Real.cos_pi]
    ring
  have hx : Real.cos (-d / r) - Real.sin p.latitude * destinationSinφ2 p (-d) θ r =
      Real.cos (d / r) - Real.sin p.latitude * destinationSinφ2 p d (θ + Real.pi) r := by
    rw [hsin]
    simp only [neg_div, Real.cos_neg]
  simp only [greatCircleDestination, Cartographic.mk.injEq]
  exact ⟨by rw [hy, hx], by rw [hsin], trivial⟩

/-- Witness for `greatCircleDestination_neg_distance` at the origin point,
distance 1, bearing 0, radius 1. -/
theorem greatCircleDestination_neg_distance_witness :
    (0 : ℝ) < 1 ∧
      greatCircleDestination ⟨0, 0, 0⟩ (-1) 0 1 =
        greatCircleDestination ⟨0, 0, 0⟩ 1 (0 + Real.pi) 1 :=
  ⟨by norm_num, greatCircleDestination_neg_distance ⟨0, 0, 0⟩ 1 0 1 (by norm_num)⟩

/-- C8: for every pair of points and every positive radius the ground
distance is nonnegative; the central angle `c` lies in [0, π], reaching 0
for identical points and π for antipodal points (latitude negated,
longitude shifted by π). -/
theorem greatCircleGroundDistance_nonneg_range (p1 p2 : Cartographic) (R h : ℝ)
    (hR : 0 < R) :
    0 ≤ greatCircleGroundDistance p1 p2 R ∧
      0 ≤ centralAngle p1 p2 ∧ centralAngle p1 p2 ≤ Real.pi ∧
      centralAngle p1 p1 = 0 ∧
      centralAngle p1 ⟨p1.longitude + Real.pi, -p1.latitude, h⟩ = Real.pi := by
  have hc0 : 0 ≤ centralAngle p1 p2 := by
    simp only [centralAngle]
    have := @atan2_nonneg (Real.sqrt (haversineA p1 p2)) (Real.sqrt (1 - haversineA p1 p2))
      (Real.sqrt_nonneg (haversineA p1 p2))
    linarith
  have hcπ : centralAngle p1 p2 ≤ Real.pi := by
    simp only [centralAngle]
    have := @atan2_le_pi_div_two (Real.sqrt (haversineA p1 p2)) (Real.sqrt (1 - haversineA p1 p2))
      (Real.sqrt_nonneg (1 - haversineA p1 p2))
    linarith
  refine ⟨mul_nonneg hR.le hc0, hc0, hcπ, ?_, ?_⟩
  · have hA : haversineA p1 p1 = 0 := by
      simp [haversineA]
    simp only [centralAngle, hA, Real.sqrt_zero, sub_zero, Real.sqrt_one,
      atan2_zero_of_nonneg zero_le_one, mul_zero]
  · have hA : haversineA p1 ⟨p1.longitude + Real.pi, -p1.latitude, h⟩ = 1 := by
      rw [haversineA_eq]
      have hlon : (⟨p1.longitude + Real.pi, -p1.latitude, h⟩ : Cartographic).longitude -
          p1.longitude = Real.pi := by
        show p1.longitude + Real.pi - p1.longitude = Real.pi
        ring
      rw [hlon]
      show (1 - (Real.sin p1.latitude * Real.sin (-p1.latitude) +
        Real.cos p1.latitude * Real.cos (-p1.latitude) * Real.cos Real.pi)) / 2 = 1
      rw [Real.sin_neg, Real.cos_neg, Real.cos_pi]
      have := Real.sin_sq_add_cos_sq p1.latitude
      linear_combination (1 / 2) * this
    simp only [centralAngle, hA, Real.sqrt_one, sub_self, Real.sqrt_zero, atan2_one_zero]
    ring

/-- Witness for `greatCircleGroundDistance_nonneg_range` with both points
at the origin and radius 1. -/
theorem greatCircleGroundDistance_nonneg_range_witness :
    (0 : ℝ) < 1 ∧
      (0 ≤ greatCircleGroundDistance ⟨0, 0, 0⟩ ⟨0, 0, 0⟩ 1 ∧
        0 ≤ centralAngle ⟨0, 0, 0⟩ ⟨0, 0, 0⟩ ∧ centralAngle ⟨0, 0, 0⟩ ⟨0, 0, 0⟩ ≤ Real.pi ∧
        centralAngle ⟨0, 0, 0⟩ ⟨0, 0, 0⟩ = 0 ∧
        centralAngle ⟨0, 0, 0⟩ ⟨0 + Real.pi, -0, 0⟩ = Real.pi) :=
  ⟨by norm_num, greatCircleGroundDistance_nonneg_range ⟨0, 0, 0⟩ ⟨0, 0, 0⟩ 1 0 (by norm_num)⟩

end

end CesiumCartographic
